import Mathlib

/-!
Shallow embedding of the PR diff-compression engine of the PROwl repository
(`src/intake/compression`: `models.py`, `utils.py`, `language_analyzer.py`,
`smart_strategy.py`).

Modelling conventions:
* Python `float` arithmetic is modelled over `ℚ` (the decimal constants of the
  source, such as `0.75` or `0.3`, are exact rationals here).
* `tiktoken` token counting (class `TokenCounter`) is an external library; it
  is modelled as an arbitrary function `tc : String → Nat` passed as a
  parameter.  `fallbackTokenCount` is the source's own `len(text) // 4`
  fallback, used to instantiate `tc` on concrete inputs.
* The Redis cache consulted by `PullRequestLanguageAnalyzer.analyze_repository`
  is modelled as an `Option` parameter (`none` = cold cache / miss).
* A raised exception (the division by zero in
  `SmartCompressionStrategy._generate_stats`) is modelled by `Option`/`none`.
-/

namespace PROwl

/-! ### Python string primitives -/

/-- Python `s.startswith(pre)`. -/
def strStarts (s pre : String) : Bool := pre.toList.isPrefixOf s.toList

/-- Python `s.endswith(suf)`. -/
def strEnds (s suf : String) : Bool := suf.toList.isSuffixOf s.toList

/-- One step of a substring scan: does `pat` occur in the char list? -/
def subScan (pat : List Char) : List Char → Bool
  | [] => pat.isEmpty
  | c :: t => pat.isPrefixOf (c :: t) || subScan pat t

/-- Python `pat in s` (substring containment). -/
def strContainsSub (s pat : String) : Bool := subScan pat.toList s.toList

/-- Python `s.lower()` (the paths and patterns involved are ASCII). -/
def strLower (s : String) : String := String.mk (s.toList.map Char.toLower)

/-- Python `s.split('\n')` (keeps empty pieces), on char lists. -/
def splitLinesAux : List Char → List (List Char)
  | [] => [[]]
  | c :: t =>
    match splitLinesAux t, c == '\n' with
    | r, true => [] :: r
    | [], false => [[c]]
    | g :: gs, false => (c :: g) :: gs

/-- Python `s.split('\n')`. -/
def pySplitLines (s : String) : List String := (splitLinesAux s.toList).map String.mk

/-! ### Python numeric primitives -/

/-- Python `int(x)` applied to a float: truncation toward zero. -/
def pyInt (q : ℚ) : ℤ := if q < 0 then -(Rat.floor (-q)) else Rat.floor q

/-- Python `round(x)` to the nearest integer, ties to even (banker's rounding,
the ideal semantics of Python 3 `round` over exact values). -/
def roundHalfEven (q : ℚ) : ℤ :=
  let f := Rat.floor q
  let r := q - f
  if r < 1/2 then f
  else if 1/2 < r then f + 1
  else if f % 2 = 0 then f else f + 1

/-- Python `round(x, 1)`: round to one decimal place. -/
def round1 (q : ℚ) : ℚ := (roundHalfEven (q * 10) : ℚ) / 10

/-! ### Data model (`compression/models.py`) -/

/-- `models.FileChange`: one changed file of a pull request. -/
structure FileChange where
  path : String
  status : String
  additions : Nat
  deletions : Nat
  changes : Nat
  patch : String
  language : String := ""
  tokens : Nat := 0
  isBinary : Bool := false
deriving DecidableEq

/-- `models.FileChange.is_deleted`. -/
def FileChange.isDeleted (f : FileChange) : Bool := f.status == "removed"

/-- `models.InclusionTier`. -/
inductive InclusionTier
  | full
  | summary
  | listed
deriving DecidableEq

/-- `models.ScoredFile`: a file with its importance scoring. -/
structure ScoredFile where
  file : FileChange
  importanceScore : ℚ
  criticalBonus : ℚ := 0
  languageBonus : ℚ := 0
  sizeBonus : ℚ := 0
  typePenalty : ℚ := 0
  isCritical : Bool := false
  isTest : Bool := false
  isDoc : Bool := false
  inclusionTier : Option InclusionTier := none
deriving DecidableEq

/-- `models.CompressionConfig`. -/
structure CompressionConfig where
  maxTokens : Nat := 50000
  preserveCriticalDeletions : Bool := true
  preserveContextLines : Nat := 3
  fullDiffTokenBudget : ℚ := 3/4
  summaryTokenBudget : ℚ := 1/5
  listedTokenBudget : ℚ := 1/20
  criticalPatternBonus : ℚ := 50
  languageBonusMultiplier : ℚ := 3/10
  additionsWeight : ℚ := 1/10
  deletionsWeight : ℚ := 1/20
  testFilePenalty : ℚ := 7/10
  docFilePenalty : ℚ := 1/2
deriving DecidableEq

/-- The default `CompressionConfig()`. -/
def defaultConfig : CompressionConfig := {}

/-! ### `utils.LanguageDetector` -/

/-- `LanguageDetector.EXTENSIONS`, in source (insertion) order. -/
def extensionTable : List (String × String) :=
  [(".py", "python"), (".java", "java"), (".c", "c"), (".cpp", "cpp"),
   (".cc", "cpp"), (".h", "c"), (".hpp", "cpp"), (".go", "go"),
   (".rs", "rust"), (".swift", "swift"), (".kt", "kotlin"),
   (".js", "javascript"), (".jsx", "javascript"), (".ts", "typescript"),
   (".tsx", "typescript"), (".rb", "ruby"), (".php", "php"),
   (".pl", "perl"), (".sh", "shell"), (".bash", "shell"),
   (".html", "html"), (".htm", "html"), (".css", "css"),
   (".scss", "scss"), (".sass", "sass"), (".vue", "vue"),
   (".json", "json"), (".yaml", "yaml"), (".yml", "yaml"),
   (".xml", "xml"), (".toml", "toml"), (".ini", "ini"),
   (".md", "markdown"), (".rst", "restructuredtext"), (".txt", "text"),
   (".sql", "sql"), (".graphql", "graphql")]

/-- The lookup loop of `LanguageDetector.detect`. -/
def detectGo : List (String × String) → String → String
  | [], _ => "unknown"
  | (ext, lang) :: t, p => if strEnds p ext then lang else detectGo t p

/-- `LanguageDetector.detect`: first extension of the table that is a suffix. -/
def detect (filepath : String) : String := detectGo extensionTable filepath

/-! ### `utils.FileClassifier` -/

/-- `FileClassifier.CRITICAL_PATTERNS`. -/
def criticalPatterns : List String :=
  ["auth", "security", "crypto", "password", "token",
   "session", "jwt", "oauth", "permission", "acl",
   "payment", "billing", "invoice", "transaction",
   "checkout", "cart", "order",
   "migration", "schema", "model", "database",
   "api/", "/api/", "routes/", "endpoint", "controller",
   "graphql", "rest",
   "middleware", "interceptor", "filter",
   "config/production", "config/prod"]

/-- `FileClassifier.TEST_PATTERNS`. -/
def testPatterns : List String :=
  ["test_", "_test.", "test/", "/test/",
   "tests/", "/tests/", "spec/", "/spec/",
   "__tests__/", "*.test.", "*.spec."]

/-- `FileClassifier.DOC_PATTERNS`. -/
def docPatterns : List String :=
  ["README", "CHANGELOG", "CONTRIBUTING",
   "LICENSE", "docs/", "/docs/",
   ".md", ".rst", ".txt"]

/-- `FileClassifier.GENERATED_PATTERNS`. -/
def generatedPatterns : List String :=
  ["package-lock.json", "yarn.lock", "Gemfile.lock",
   "Pipfile.lock", "poetry.lock",
   "node_modules/", "vendor/", "dist/", "build/",
   ".min.js", ".min.css"]

/-- `FileClassifier.is_critical`: lower-cases the path, then substring match. -/
def isCritical (filepath : String) : Bool :=
  criticalPatterns.any (fun pat => strContainsSub (strLower filepath) pat)

/-- `FileClassifier.is_test`: lower-cases the path, then substring match. -/
def isTest (filepath : String) : Bool :=
  testPatterns.any (fun pat => strContainsSub (strLower filepath) pat)

/-- `FileClassifier.is_doc`: raw-case substring match. -/
def isDoc (filepath : String) : Bool :=
  docPatterns.any (fun pat => strContainsSub filepath pat)

/-- `FileClassifier.is_generated`: raw-case substring match. -/
def isGenerated (filepath : String) : Bool :=
  generatedPatterns.any (fun pat => strContainsSub filepath pat)

/-! ### `utils.PatchProcessor` -/

/-- Loop state machine of `PatchProcessor.remove_deletion_only_hunks`, over the
already split lines: arguments are remaining lines, `current_hunk`, `in_hunk`,
`hunk_has_additions`; it emits the retained lines in order. -/
def rdohLoop : List String → List String → Bool → Bool → List String
  | [], current, inHunk, hasAdd => if inHunk && hasAdd then current else []
  | l :: rest, current, inHunk, hasAdd =>
    if strStarts l "@@" then
      (if inHunk && hasAdd then current else []) ++ rdohLoop rest [l] true false
    else if inHunk then
      rdohLoop rest (current ++ [l]) inHunk
        (hasAdd || (strStarts l "+" && !(strStarts l "+++")))
    else
      l :: rdohLoop rest current inHunk hasAdd

/-- `PatchProcessor.remove_deletion_only_hunks`. -/
def removeDeletionOnlyHunks (patch : String) : String :=
  String.intercalate "\n" (rdohLoop (pySplitLines patch) [] false false)

/-- `PatchProcessor.expand_context`: identity (the source is a stub). -/
def expandContext (patch : String) : String := patch

/-! #### Regular-expression matchers of `extract_function_signatures`

The four per-language patterns are start-anchored (`re.search` with a leading
`^` and no MULTILINE flag, applied to single lines).  Within every branch the
character classes `\w`, `\s` and the literals are disjoint, so the greedy runs
are forced; the only choice points (`\+?`, the optional java access-modifier
group, and top-level alternation) are realised with `Option.orElse` in the
backtracking order of Python `re`. -/

/-- Python `\w` on ASCII input. -/
def isWordChar (c : Char) : Bool := c.isAlphanum || c == '_'

/-- Python `\s` on ASCII input. -/
def isSpaceChar (c : Char) : Bool :=
  c == ' ' || c == '\t' || c == '\n' || c == '\r' || c == Char.ofNat 11 || c == Char.ofNat 12

/-- Maximal `\w*` run and the remainder. -/
def wordRun (s : List Char) : List Char × List Char :=
  (s.takeWhile isWordChar, s.dropWhile isWordChar)

/-- Maximal `\s*` run dropped. -/
def dropSpaces (s : List Char) : List Char := s.dropWhile isSpaceChar

/-- Match `\s+(\w+)\s*\(` at the head, returning the capture. -/
def spacesNameParen : List Char → Option String
  | [] => none
  | c :: r =>
    if isSpaceChar c then
      let t := dropSpaces r
      let p := wordRun t
      if p.1.isEmpty then none
      else
        match dropSpaces p.2 with
        | '(' :: _ => some (String.mk p.1)
        | _ => none
    else none

/-- Match `kw\s+(\w+)\s*\(` at the head (`kw` a literal keyword). -/
def kwNameParen (kw : String) (s : List Char) : Option String :=
  if kw.toList.isPrefixOf s then spacesNameParen (s.drop kw.toList.length) else none

/-- Match `const\s+(\w+)\s*=\s*\(` at the head. -/
def constAssignParen (s : List Char) : Option String :=
  if ("const").toList.isPrefixOf s then
    match s.drop 5 with
    | [] => none
    | c :: r =>
      if isSpaceChar c then
        let t := dropSpaces r
        let p := wordRun t
        if p.1.isEmpty then none
        else
          match dropSpaces p.2 with
          | '=' :: t3 =>
            (match dropSpaces t3 with
             | '(' :: _ => some (String.mk p.1)
             | _ => none)
          | _ => none
      else none
  else none

/-- Apply a start-anchored matcher under a leading `\+?` (greedy, with
fallback to the empty alternative). -/
def underPlusOpt (m : List Char → Option String) (s : List Char) : Option String :=
  match s with
  | '+' :: rest => (m rest).orElse (fun _ => m s)
  | _ => m s

/-- The python pattern `^\+?def\s+(\w+)\s*\(`. -/
def pythonSigLine (line : String) : Option String :=
  underPlusOpt (kwNameParen "def") line.toList

/-- The javascript/typescript pattern
`^\+?function\s+(\w+)\s*\(|^\+?const\s+(\w+)\s*=\s*\(`; the collected value is
`match.group(1) or match.group(2)`, i.e. whichever branch matched. -/
def jsSigLine (line : String) : Option String :=
  (underPlusOpt (kwNameParen "function") line.toList).orElse
    (fun _ => underPlusOpt constAssignParen line.toList)

/-- Match `\w+\s+(\w+)\s*\(` at the head (the tail of the java pattern),
returning the second capture group. -/
def javaNameParen (v : List Char) : Option String :=
  let p := wordRun v
  if p.1.isEmpty then none else spacesNameParen p.2

/-- Try the java access-modifier alternative `m`: on a full match the collected
value is `match.group(1) or match.group(2)` and group 1 is the modifier
keyword itself, which is what gets returned. -/
def javaModifier (m : String) (t : List Char) : Option String :=
  if m.toList.isPrefixOf t then
    match javaNameParen (dropSpaces (t.drop m.toList.length)) with
    | some _ => some m
    | none => none
  else none

/-- The java pattern `^\+?\s*(public|private|protected)?\s*\w+\s+(\w+)\s*\(`
after the optional `+`, with the backtracking order of `re`. -/
def javaCore (u : List Char) : Option String :=
  let t := dropSpaces u
  (javaModifier "public" t).orElse fun _ =>
  (javaModifier "private" t).orElse fun _ =>
  (javaModifier "protected" t).orElse fun _ =>
  javaNameParen t

/-- The java pattern, collected value `match.group(1) or match.group(2)`. -/
def javaSigLine (line : String) : Option String :=
  underPlusOpt javaCore line.toList

/-- The `patterns.get(language)` dispatch of `extract_function_signatures`. -/
def sigMatcherFor (language : String) : Option (String → Option String) :=
  if language == "python" then some pythonSigLine
  else if language == "javascript" then some jsSigLine
  else if language == "typescript" then some jsSigLine
  else if language == "java" then some javaSigLine
  else none

/-- `PatchProcessor.extract_function_signatures`. -/
def extractFunctionSignatures (patch : String) (language : String) : List String :=
  match sigMatcherFor language with
  | none => []
  | some m =>
    (pySplitLines patch).filterMap (fun line =>
      match m line with
      | some sig => if sig.isEmpty then none else some sig
      | none => none)

/-! ### `language_analyzer.PullRequestLanguageAnalyzer` -/

/-- The skip list of `_should_skip_file`. -/
def skipPatterns : List String :=
  ["node_modules/", "vendor/", "dist/", "build/",
   ".min.js", ".min.css",
   "package-lock.json", "yarn.lock", "Gemfile.lock",
   "Pipfile.lock", "poetry.lock",
   "README", "LICENSE", "CHANGELOG"]

/-- `PullRequestLanguageAnalyzer._should_skip_file`. -/
def shouldSkipFile (path : String) : Bool :=
  skipPatterns.any (fun pat => strContainsSub path pat)

/-- `PullRequestLanguageAnalyzer._get_default_priorities`. -/
def getDefaultPriorities : List (String × ℚ) :=
  [("python", 70), ("javascript", 70), ("typescript", 70), ("java", 70),
   ("go", 70), ("rust", 70), ("c", 70), ("cpp", 70), ("ruby", 70),
   ("php", 70), ("swift", 70), ("kotlin", 70),
   ("html", 60), ("css", 60), ("scss", 60),
   ("json", 40), ("yaml", 40), ("xml", 40),
   ("markdown", 30), ("text", 20)]

/-- Increment entry `k` of an insertion-ordered counter by `v`
(Python `Counter[k] += v`). -/
def bumpNat (m : List (String × Nat)) (k : String) (v : Nat) : List (String × Nat) :=
  match m with
  | [] => [(k, v)]
  | (k1, v1) :: t => if k1 == k then (k1, v1 + v) :: t else (k1, v1) :: bumpNat t k v

/-- Counter lookup (Python `Counter[k]`, defaulting to 0). -/
def lookupNat (m : List (String × Nat)) (k : String) : Nat :=
  match m with
  | [] => 0
  | (k1, v1) :: t => if k1 == k then v1 else lookupNat t k

/-- Python `dict.get(k, d)` on a language-score map. -/
def lookupQ (m : List (String × ℚ)) (k : String) (d : ℚ) : ℚ :=
  match m with
  | [] => d
  | (k1, v1) :: t => if k1 == k then v1 else lookupQ t k d

/-- One iteration of the counting loop of `_analyze_file_list`: the pair is
`(language_counts, language_line_changes)`. -/
def tallyStep (acc : List (String × Nat) × List (String × Nat)) (f : FileChange) :
    List (String × Nat) × List (String × Nat) :=
  if shouldSkipFile f.path then acc
  else
    let lang := detect f.path
    if lang == "unknown" then acc
    else (bumpNat acc.1 lang 1, bumpNat acc.2 lang (f.additions + f.deletions))

/-- `PullRequestLanguageAnalyzer._analyze_file_list`.  Note the divisor of
`percentage`: `total_files = sum(language_counts.values())`, a file count. -/
def analyzeFileListCode (prFiles : List FileChange) : List (String × ℚ) :=
  if prFiles.isEmpty then getDefaultPriorities
  else
    let tallies := prFiles.foldl tallyStep ([], [])
    let totalFiles : Nat := (tallies.1.map (fun kv => kv.2)).sum
    tallies.1.map (fun kv =>
      (kv.1, round1 (50 + ((lookupNat tallies.2 kv.1 : ℚ) / (totalFiles : ℚ) * 100) * (1/2))))

/-- `PullRequestLanguageAnalyzer.analyze_repository`: return the cached map if
the cache lookup yields a truthy value, else analyze the PR file list (the
write-back to the cache has no effect on the returned value). -/
def analyzeRepositoryModel (cached : Option (List (String × ℚ)))
    (prFiles : List FileChange) : List (String × ℚ) :=
  match cached with
  | some scores => if scores.isEmpty then analyzeFileListCode prFiles else scores
  | none => analyzeFileListCode prFiles

/-! ### `utils.TokenCounter` -/

/-- The `len(text) // 4` fallback of `TokenCounter.count`, used here to
instantiate the abstract token counter on concrete inputs. -/
def fallbackTokenCount (s : String) : Nat := s.length / 4

/-! ### `smart_strategy.SmartCompressionStrategy` -/

/-- The per-file body of `_prepare_files` (language detection, patch rewrite,
token count), for a file that survived the binary/generated filter. -/
def prepareFile (tc : String → Nat) (f : FileChange) : FileChange :=
  let lang := detect f.path
  let p := if isCritical f.path then expandContext f.patch
           else removeDeletionOnlyHunks f.patch
  { f with language := lang, patch := p, tokens := tc p }

/-- `SmartCompressionStrategy._prepare_files`. -/
def prepareFiles (tc : String → Nat) (files : List FileChange) : List FileChange :=
  (files.filter (fun f => !f.isBinary && !(isGenerated f.path))).map (prepareFile tc)

/-- `SmartCompressionStrategy._score_files`, body for one file. -/
def scoreFile (cfg : CompressionConfig) (languageScores : List (String × ℚ))
    (f : FileChange) : ScoredFile :=
  let crit := isCritical f.path
  let criticalBonus : ℚ := if crit then cfg.criticalPatternBonus else 0
  let langPriority := lookupQ languageScores f.language 50
  let languageBonus := langPriority * cfg.languageBonusMultiplier
  let additionsScore := min ((f.additions : ℚ) * cfg.additionsWeight) 20
  let deletionsScore := min ((f.deletions : ℚ) * cfg.deletionsWeight) 10
  let sizeBonus := additionsScore + deletionsScore
  let base := criticalBonus + languageBonus + sizeBonus
  let t := isTest f.path
  let d := isDoc f.path
  let afterPenalty : ℚ :=
    if t then base * cfg.testFilePenalty
    else if d then base * cfg.docFilePenalty
    else base
  let typePenalty : ℚ :=
    if t then -(1 - cfg.testFilePenalty)
    else if d then -(1 - cfg.docFilePenalty)
    else 0
  let final : ℚ := if f.isDeleted && crit then afterPenalty + 30 else afterPenalty
  { file := f, importanceScore := final,
    criticalBonus := criticalBonus, languageBonus := languageBonus,
    sizeBonus := sizeBonus, typePenalty := typePenalty,
    isCritical := crit, isTest := t, isDoc := d }

/-- `SmartCompressionStrategy._score_files`. -/
def scoreFiles (cfg : CompressionConfig) (languageScores : List (String × ℚ))
    (files : List FileChange) : List ScoredFile :=
  files.map (scoreFile cfg languageScores)

/-- `ScoredFile.__lt__`. -/
def scoredLT (a b : ScoredFile) : Bool := decide (a.importanceScore < b.importanceScore)

/-- The comparison realised by `scored_files.sort(reverse=True)`: CPython's
sort is stable and, with `reverse=True`, produces the unique descending-order
permutation that keeps ties in original order; `List.mergeSort` with this
total comparison computes exactly that list. -/
def scoredDescLE (a b : ScoredFile) : Bool := !(scoredLT a b)

/-- Step 3 of `compress`: `scored_files.sort(reverse=True)`. -/
def sortScored (l : List ScoredFile) : List ScoredFile := l.mergeSort scoredDescLE

/-- `SmartCompressionStrategy._estimate_summary_tokens`. -/
def estimateSummaryTokens (sf : ScoredFile) : Nat :=
  let base := 50 + (if sf.isCritical then 100 else 0)
    + (extractFunctionSignatures sf.file.patch sf.file.language).length * 10
  min base 200

/-- Set `inclusion_tier` (the in-place field assignment of the allocator). -/
def setTier (t : InclusionTier) (sf : ScoredFile) : ScoredFile :=
  { sf with inclusionTier := some t }

/-- First pass of `_allocate_to_tiers`: greedy prefix into FULL, stopping the
whole pass at the first file that would exceed the budget; returns the
allocated files and the files left unassigned. -/
def fullPass (budget : ℤ) : Nat → List ScoredFile → List ScoredFile × List ScoredFile
  | _, [] => ([], [])
  | used, sf :: rest =>
    if (used : ℤ) + sf.file.tokens ≤ budget then
      let p := fullPass budget (used + sf.file.tokens) rest
      (setTier InclusionTier.full sf :: p.1, p.2)
    else ([], sf :: rest)

/-- Second pass of `_allocate_to_tiers`: greedy prefix into SUMMARY by
estimated summary cost, stopping at the first overflow. -/
def summaryPass (budget : ℤ) : Nat → List ScoredFile → List ScoredFile × List ScoredFile
  | _, [] => ([], [])
  | used, sf :: rest =>
    if (used : ℤ) + estimateSummaryTokens sf ≤ budget then
      let p := summaryPass budget (used + estimateSummaryTokens sf) rest
      (setTier InclusionTier.summary sf :: p.1, p.2)
    else ([], sf :: rest)

/-- Third pass of `_allocate_to_tiers`: every remaining file goes to LISTED;
within budget the flat 20-token estimate is charged, past the budget the file
is force-appended without charging. -/
def listedPass (budget : ℤ) : Nat → List ScoredFile → List ScoredFile
  | _, [] => []
  | used, sf :: rest =>
    if (used : ℤ) + 20 ≤ budget then
      setTier InclusionTier.listed sf :: listedPass budget (used + 20) rest
    else
      setTier InclusionTier.listed sf :: listedPass budget used rest

/-- The three tier lists of `_allocate_to_tiers`. -/
structure Allocation where
  full : List ScoredFile
  summary : List ScoredFile
  listed : List ScoredFile
deriving DecidableEq

/-- `SmartCompressionStrategy._allocate_to_tiers`.  In the source the second
and third passes re-scan `scored_files` for `inclusion_tier is None`; since
each pass consumes a prefix and tags exactly the files it admits, those
re-scans select precisely the untagged suffix returned by the previous pass. -/
def allocateToTiers (cfg : CompressionConfig) (scoredFiles : List ScoredFile) : Allocation :=
  let fullBudget := pyInt ((cfg.maxTokens : ℚ) * cfg.fullDiffTokenBudget)
  let summaryBudget := pyInt ((cfg.maxTokens : ℚ) * cfg.summaryTokenBudget)
  let listedBudget := pyInt ((cfg.maxTokens : ℚ) * cfg.listedTokenBudget)
  let p1 := fullPass fullBudget 0 scoredFiles
  let p2 := summaryPass summaryBudget 0 p1.2
  let l3 := listedPass listedBudget 0 p2.2
  { full := p1.1, summary := p2.1, listed := l3 }

/-- Total patch tokens of a list of scored files. -/
def sumTokens (l : List ScoredFile) : Nat := (l.map (fun sf => sf.file.tokens)).sum

/-- `SmartCompressionStrategy._calculate_compressed_tokens`. -/
def calculateCompressedTokens (alloc : Allocation) : Nat :=
  sumTokens alloc.full + (alloc.summary.map estimateSummaryTokens).sum
    + alloc.listed.length * 20

/-- `SmartCompressionStrategy._count_by_language`. -/
def countByLanguage (scoredFiles : List ScoredFile) : List (String × Nat) :=
  scoredFiles.foldl (fun m sf => bumpNat m sf.file.language 1) []

/-- The statistics dictionary of `_generate_stats`. -/
structure CompressionStats where
  totalFiles : Nat
  totalAdditions : Nat
  totalDeletions : Nat
  includedFull : Nat
  includedSummary : Nat
  includedListed : Nat
  criticalFiles : Nat
  criticalInFull : Nat
  criticalInSummary : Nat
  languages : List (String × Nat)
  avgImportanceScore : ℚ
  maxImportanceScore : ℚ
  minImportanceScore : ℚ
deriving DecidableEq

/-- `SmartCompressionStrategy._generate_stats`.  With an empty scored list the
source raises `ZeroDivisionError` on `avg_importance_score` (and `max`/`min`
of an empty sequence would raise as well); this is modelled by `none`. -/
def generateStats (scoredFiles : List ScoredFile) (alloc : Allocation) :
    Option CompressionStats :=
  match scoredFiles with
  | [] => none
  | s :: rest =>
    let all := s :: rest
    some
      { totalFiles := all.length
        totalAdditions := (all.map (fun sf => sf.file.additions)).sum
        totalDeletions := (all.map (fun sf => sf.file.deletions)).sum
        includedFull := alloc.full.length
        includedSummary := alloc.summary.length
        includedListed := alloc.listed.length
        criticalFiles := all.countP (fun sf => sf.isCritical)
        criticalInFull := alloc.full.countP (fun sf => sf.isCritical)
        criticalInSummary := alloc.summary.countP (fun sf => sf.isCritical)
        languages := countByLanguage all
        avgImportanceScore := (all.map (fun sf => sf.importanceScore)).sum / (all.length : ℚ)
        maxImportanceScore := rest.foldl (fun m x => max m x.importanceScore) s.importanceScore
        minImportanceScore := rest.foldl (fun m x => min m x.importanceScore) s.importanceScore }

/-- `models.CompressionResult`. -/
structure CompressionResult where
  originalFiles : List FileChange
  originalTokens : Nat
  includedFull : List ScoredFile
  includedSummary : List ScoredFile
  includedListed : List ScoredFile
  compressedTokens : Nat
  compressionRatio : ℚ
  strategyUsed : String
  stats : CompressionStats
deriving DecidableEq

/-- `SmartCompressionStrategy.compress`, from a given cache state.  `none`
models the `ZeroDivisionError` escaping from `_generate_stats`. -/
def compressModel (tc : String → Nat) (cached : Option (List (String × ℚ)))
    (cfg : CompressionConfig) (files : List FileChange) : Option CompressionResult :=
  let prepared := prepareFiles tc files
  let languageScores := analyzeRepositoryModel cached prepared
  let scoredFiles := scoreFiles cfg languageScores prepared
  let sorted := sortScored scoredFiles
  let allocation := allocateToTiers cfg sorted
  let originalTokens := sumTokens sorted
  let compressedTokens := calculateCompressedTokens allocation
  match generateStats sorted allocation with
  | none => none
  | some stats =>
    some
      { originalFiles := prepared
        originalTokens := originalTokens
        includedFull := allocation.full
        includedSummary := allocation.summary
        includedListed := allocation.listed
        compressedTokens := compressedTokens
        compressionRatio :=
          if 0 < originalTokens then (compressedTokens : ℚ) / (originalTokens : ℚ) else 1
        strategyUsed := "smart"
        stats := stats }

/-! ### Specification-side definitions (stated from the spec's words, for
comparison with the source embeddings above) -/

/-- The language-priority formula as the specification states it:
`50 + 0.5 * (language_line_total / total_line_total_across_all_languages) * 100`,
rounded to one decimal. -/
def specLanguagePriority (langLineTotal totalLineTotal : Nat) : ℚ :=
  round1 (50 + (1/2) * ((langLineTotal : ℚ) / (totalLineTotal : ℚ)) * 100)

/-- A hunk contains at least one addition line (a line starting with `+` that
does not start with `+++`). -/
def hunkHasAddition (h : List String) : Bool :=
  h.any (fun l => strStarts l "+" && !(strStarts l "+++"))

/-- Parse the lines after the preamble into hunks: each hunk is an `@@` line
together with the following lines up to the next `@@` line. -/
def specSplitHunks : List String → List (List String)
  | [] => []
  | l :: rest =>
    (l :: rest.takeWhile (fun x => !(strStarts x "@@"))) ::
      specSplitHunks (rest.dropWhile (fun x => !(strStarts x "@@")))
termination_by ls => ls.length
decreasing_by
  simp only [List.length_cons]
  exact Nat.lt_succ_of_le (List.dropWhile_sublist _).length_le

/-- The claimed behaviour of `remove_deletion_only_hunks` on split lines: the
preamble (lines before the first `@@`) passes through unchanged, and exactly
the hunks containing an addition line are kept, in order. -/
def specRemoveDeletionOnlyLines (ls : List String) : List String :=
  ls.takeWhile (fun l => !(strStarts l "@@")) ++
    ((specSplitHunks (ls.dropWhile (fun l => !(strStarts l "@@")))).filter
      hunkHasAddition).flatten

/-! ### Concrete inputs used by the claims -/

/-- The single-file PR of claim C1's failing input. -/
def c1File : FileChange :=
  { path := "a.py", status := "modified", additions := 10, deletions := 2,
    changes := 12, patch := "" }

/-- The input file of the spec's example scenario (§8.8, claim C2). -/
def c2File : FileChange :=
  { path := "auth/session.py", status := "modified", additions := 10, deletions := 2,
    changes := 12, patch := "+token = generate()\n-old_token = None\n" }

/-- A file the language analyzer's skip list filters out. -/
def readmeFile : FileChange :=
  { path := "README.md", status := "modified", additions := 5, deletions := 1,
    changes := 6, patch := "+hello\n" }

/-- A binary file, filtered out by `_prepare_files`. -/
def binaryFile : FileChange :=
  { path := "img.png", status := "added", additions := 0, deletions := 0,
    changes := 0, patch := "", isBinary := true }

/-- First of two equally scored files (determinism/stability witness). -/
def tieFileA : FileChange :=
  { path := "alpha/m1.py", status := "modified", additions := 0, deletions := 0,
    changes := 0, patch := "" }

/-- Second of two equally scored files (determinism/stability witness). -/
def tieFileB : FileChange :=
  { path := "beta/m2.py", status := "modified", additions := 0, deletions := 0,
    changes := 0, patch := "" }

/-! ## Helper lemmas -/

theorem ratFloor_eq (q : ℚ) : Rat.floor q = ⌊q⌋ := by
  rw [Rat.floor_def', Rat.floor_def]

theorem pyInt_intCast (n : ℤ) : pyInt (n : ℚ) = n := by
  unfold pyInt
  split
  · rw [show (-(n : ℚ)) = ((-n : ℤ) : ℚ) by push_cast; ring, ratFloor_eq, Int.floor_intCast]
    ring
  · rw [ratFloor_eq, Int.floor_intCast]

theorem pyInt_of_nonneg (q : ℚ) (h : 0 ≤ q) : pyInt q = ⌊q⌋ := by
  unfold pyInt
  rw [if_neg (not_lt.mpr h), ratFloor_eq]

theorem roundHalfEven_intCast (n : ℤ) : roundHalfEven (n : ℚ) = n := by
  unfold roundHalfEven
  rw [ratFloor_eq, Int.floor_intCast]
  norm_num

theorem round1_eq_of_mul_ten (q : ℚ) (n : ℤ) (h : q * 10 = (n : ℚ)) :
    round1 q = (n : ℚ) / 10 := by
  unfold round1
  rw [h, roundHalfEven_intCast]

/-! ## Claim C1 -/

/-- C1: the specification says the language priority is
`50 + 0.5 * (language_line_total / total_line_total) * 100` rounded to one
decimal.  The source divides by `total_files` (the number of counted files)
instead of by the total line changes: on a single python file with
10 additions and 2 deletions the code yields priority 650.0 (also violating
the `0-100` range promised by `analyze_repository`'s docstring), while the
specified formula yields 100.0. -/
theorem c1_language_priority_formula :
    analyzeFileListCode [c1File] = [("python", 650)] ∧
    specLanguagePriority 12 12 = 100 ∧ ((650 : ℚ) ≠ 100) := by
  have h1 : shouldSkipFile "a.py" = false := by decide
  have h2 : detect "a.py" = "python" := by decide
  have h3 : (("python" : String) == "unknown") = false := by decide
  refine ⟨?_, ?_, by norm_num⟩
  · simp only [analyzeFileListCode, c1File, List.isEmpty_cons, List.foldl_cons,
      List.foldl_nil, tallyStep, h1, h2, h3, Bool.false_eq_true, if_false,
      bumpNat, lookupNat, beq_self_eq_true, if_true, List.map_cons, List.map_nil,
      List.sum_cons, List.sum_nil, Prod.mk.injEq, true_and]
    rw [round1_eq_of_mul_ten _ 6500 (by norm_num)]
    norm_num
  · unfold specLanguagePriority
    rw [round1_eq_of_mul_ten _ 1000 (by norm_num)]
    norm_num

/-! ## Claim C4 -/

/-- C4 counterexample: a non-empty file list in which every file is filtered
out by the skip list does not produce the default priority table; it produces
the empty mapping. -/
theorem c4_all_filtered_counterexample :
    analyzeFileListCode [readmeFile] = [] ∧
    ([] : List (String × ℚ)) ≠ getDefaultPriorities := by
  constructor
  · decide
  · decide

theorem tallyStep_noop (acc : List (String × Nat) × List (String × Nat)) :
    ∀ (files : List FileChange),
      (∀ f ∈ files, shouldSkipFile f.path = true ∨ detect f.path = "unknown") →
      files.foldl tallyStep acc = acc
  | [], _ => rfl
  | f :: rest, h => by
    have hf := h f (List.mem_cons_self f rest)
    have hstep : tallyStep acc f = acc := by
      rcases hf with hskip | hdet
      · simp [tallyStep, hskip]
      · simp [tallyStep, hdet]
    rw [List.foldl_cons, hstep]
    exact tallyStep_noop acc rest (fun g hg => h g (List.mem_cons_of_mem f hg))

/-- C4 (amended): with an empty (or null) file list the analyzer returns the
fixed default priority table; with a non-empty list in which every file is
filtered out by the skip list or has no detectable language it returns the
empty mapping instead. -/
theorem c4_default_priorities_amended (files : List FileChange) (hne : files ≠ [])
    (hall : ∀ f ∈ files, shouldSkipFile f.path = true ∨ detect f.path = "unknown") :
    analyzeFileListCode [] = getDefaultPriorities ∧
    analyzeFileListCode files = [] := by
  refine ⟨rfl, ?_⟩
  have hempty : files.isEmpty = false := by
    cases files with
    | nil => exact absurd rfl hne
    | cons a t => rfl
  simp only [analyzeFileListCode, hempty, Bool.false_eq_true, if_false,
    tallyStep_noop ([], []) files hall, List.map_nil]

/-- C4 witness: the amended statement applied to the concrete all-filtered
input `[readmeFile]`. -/
theorem c4_default_priorities_amended_witness :
    analyzeFileListCode [] = getDefaultPriorities ∧
    analyzeFileListCode [readmeFile] = [] :=
  c4_default_priorities_amended [readmeFile] (by decide) (by decide)

/-! ## Claim C5 -/

/-- C5 counterexample: `is_test` lower-cases the path before matching, so the
upper-case path "TEST_foo.py" does match the `test_` pattern, contradicting
the claimed raw-case behaviour. -/
theorem c5_case_sensitivity_counterexample : isTest "TEST_foo.py" = true := by
  decide

/-- C5 (amended): `is_critical` and `is_test` both lower-case the path before
substring matching (so "AUTH/Login.py" is critical and "TEST_foo.py" is a
test), and `is_test` depends only on the lower-cased path; `is_doc` (like
`is_generated`) matches the raw path, so "README" is documentation while
"readme" is not. -/
theorem c5_classifier_case_amended :
    isTest "TEST_foo.py" = true ∧ isCritical "AUTH/Login.py" = true ∧
    (∀ p q : String, strLower p = strLower q → isTest p = isTest q) ∧
    isDoc "README" = true ∧ isDoc "readme" = false := by
  refine ⟨by decide, by decide, ?_, by decide, by decide⟩
  intro p q h
  simp only [isTest, h]

/-- C5 witness: the case-insensitivity part of the amended claim applied to a
concrete pair of paths differing only in case. -/
theorem c5_classifier_case_amended_witness :
    isTest "Tests/Login.py" = isTest "tests/login.py" :=
  c5_classifier_case_amended.2.2.1 "Tests/Login.py" "tests/login.py" (by decide)

/-! ## Claim C10 -/

/-- C10: for java lines carrying an access modifier the collected value is
`match.group(1) or match.group(2)`, and group 1 of the java pattern is the
modifier keyword, not the method name: on `"+public void foo("` the code
collects `"public"` where the claim (and the function's own docstring)
promise the method name `"foo"`.  Without a modifier, and for the other
supported languages, the method/function name is collected, and unsupported
languages yield the empty sequence. -/
theorem c10_java_signature_extraction :
    extractFunctionSignatures "+public void foo(" "java" = ["public"] ∧
    (["public"] : List String) ≠ ["foo"] ∧
    extractFunctionSignatures "+void foo(" "java" = ["foo"] ∧
    extractFunctionSignatures "+def handle(" "python" = ["handle"] ∧
    extractFunctionSignatures "+public void foo(" "ruby" = [] := by
  refine ⟨by decide, by decide, by decide, by decide, by decide⟩

/-! ## Claim C3 -/

/-- C3: when the prepared file list is empty (empty input, or every file
filtered out as binary/generated), `compress` does not return an empty
`CompressionResult`: `_generate_stats` divides by `len(scored_files) == 0`
when computing `avg_importance_score`, so a `ZeroDivisionError` escapes
(modelled by `none`). -/
theorem c3_empty_input_raises (tc : String → Nat) (cached : Option (List (String × ℚ)))
    (cfg : CompressionConfig) (files : List FileChange)
    (hp : prepareFiles tc files = []) :
    compressModel tc cached cfg files = none := by
  simp only [compressModel, hp, scoreFiles, List.map_nil, sortScored,
    List.mergeSort_nil, generateStats]

/-- C3 witness: the statement applied to a concrete entirely-filtered-out
input (one binary file). -/
theorem c3_empty_input_raises_witness :
    compressModel fallbackTokenCount none defaultConfig [binaryFile] = none :=
  c3_empty_input_raises fallbackTokenCount none defaultConfig [binaryFile] (by decide)

/-! ## Allocator lemmas -/

theorem setTier_file (t : InclusionTier) (sf : ScoredFile) : (setTier t sf).file = sf.file := rfl

theorem sumTokens_nil : sumTokens [] = 0 := rfl

theorem sumTokens_cons (sf : ScoredFile) (l : List ScoredFile) :
    sumTokens (sf :: l) = sf.file.tokens + sumTokens l := by
  simp [sumTokens]

theorem sumTokens_map_setTier (t : InclusionTier) (l : List ScoredFile) :
    sumTokens (l.map (setTier t)) = sumTokens l := by
  induction l with
  | nil => rfl
  | cons a r ih =>
    simp only [List.map_cons, sumTokens_cons, setTier_file, ih]

theorem fullPass_spec (b : ℤ) :
    ∀ (l : List ScoredFile) (used : Nat),
      ∃ k, k ≤ l.length ∧
        fullPass b used l = ((l.take k).map (setTier InclusionTier.full), l.drop k) ∧
        (k = 0 ∨ (used : ℤ) + (sumTokens (l.take k) : ℤ) ≤ b) ∧
        (∀ sf rest2, l.drop k = sf :: rest2 →
          b < (used : ℤ) + (sumTokens (l.take k) : ℤ) + (sf.file.tokens : ℤ))
  | [], used => by
    refine ⟨0, le_refl 0, rfl, Or.inl rfl, ?_⟩
    intro sf rest2 h
    cases h
  | sf :: rest, used => by
    by_cases hc : (used : ℤ) + (sf.file.tokens : ℤ) ≤ b
    · obtain ⟨k, hk, heq, hbud, hnext⟩ := fullPass_spec b rest (used + sf.file.tokens)
      refine ⟨k + 1, Nat.succ_le_succ hk, ?_, ?_, ?_⟩
      · simp only [fullPass, if_pos hc, heq, List.take_succ_cons, List.map_cons,
          List.drop_succ_cons]
      · right
        rcases hbud with h0 | hle
        · subst h0
          simp only [List.take_succ_cons, List.take_zero, sumTokens_cons, sumTokens_nil]
          push_cast
          linarith
        · simp only [List.take_succ_cons, sumTokens_cons]
          push_cast at hle ⊢
          linarith
      · intro g r2 hdrop
        rw [List.drop_succ_cons] at hdrop
        have hn := hnext g r2 hdrop
        simp only [List.take_succ_cons, sumTokens_cons]
        push_cast at hn ⊢
        linarith
    · refine ⟨0, Nat.zero_le _, ?_, Or.inl rfl, ?_⟩
      · simp only [fullPass, if_neg hc, List.take_zero, List.map_nil, List.drop_zero]
      · intro g r2 hdrop
        rw [List.drop_zero] at hdrop
        injection hdrop with hg hr
        subst hg
        simp only [List.take_zero, sumTokens_nil]
        push_cast
        linarith [not_le.mp hc]

theorem fullPass_files (b : ℤ) :
    ∀ (l : List ScoredFile) (used : Nat),
      ((fullPass b used l).1.map (fun sf => sf.file))
          ++ ((fullPass b used l).2.map (fun sf => sf.file))
        = l.map (fun sf => sf.file)
  | [], _ => rfl
  | sf :: rest, used => by
    by_cases hc : (used : ℤ) + (sf.file.tokens : ℤ) ≤ b
    · simp only [fullPass, if_pos hc, List.map_cons, List.cons_append, setTier_file,
        fullPass_files b rest (used + sf.file.tokens)]
    · simp only [fullPass, if_neg hc, List.map_nil, List.nil_append, List.map_cons]

theorem summaryPass_files (b : ℤ) :
    ∀ (l : List ScoredFile) (used : Nat),
      ((summaryPass b used l).1.map (fun sf => sf.file))
          ++ ((summaryPass b used l).2.map (fun sf => sf.file))
        = l.map (fun sf => sf.file)
  | [], _ => rfl
  | sf :: rest, used => by
    by_cases hc : (used : ℤ) + (estimateSummaryTokens sf : ℤ) ≤ b
    · simp only [summaryPass, if_pos hc, List.map_cons, List.cons_append, setTier_file,
        summaryPass_files b rest (used + estimateSummaryTokens sf)]
    · simp only [summaryPass, if_neg hc, List.map_nil, List.nil_append, List.map_cons]

theorem listedPass_files (b : ℤ) :
    ∀ (l : List ScoredFile) (used : Nat),
      (listedPass b used l).map (fun sf => sf.file) = l.map (fun sf => sf.file)
  | [], _ => rfl
  | sf :: rest, used => by
    by_cases hc : (used : ℤ) + 20 ≤ b
    · simp only [listedPass, if_pos hc, List.map_cons, setTier_file,
        listedPass_files b rest (used + 20)]
    · simp only [listedPass, if_neg hc, List.map_cons, setTier_file,
        listedPass_files b rest used]

theorem allocation_partition (cfg : CompressionConfig) (l : List ScoredFile) :
    ((allocateToTiers cfg l).full.map (fun sf => sf.file))
        ++ ((allocateToTiers cfg l).summary.map (fun sf => sf.file))
        ++ ((allocateToTiers cfg l).listed.map (fun sf => sf.file))
      = l.map (fun sf => sf.file) := by
  simp only [allocateToTiers]
  rw [listedPass_files, List.append_assoc, summaryPass_files, fullPass_files]

/-! ## Claim C6 -/

/-- C6: the FULL tier is a strict greedy prefix of the allocator's input list
(the score-sorted list in `compress`): there is a `k` such that FULL consists
of the first `k` files, their token sum is within
`floor(max_tokens * full_diff_token_budget)`, and if any file remains after
the prefix, the very next file would already exceed the budget — so the pass
stopped there and no later file entered FULL. -/
theorem c6_full_tier_budget (cfg : CompressionConfig) (files : List ScoredFile)
    (hb : 0 ≤ cfg.fullDiffTokenBudget) :
    ∃ k, (allocateToTiers cfg files).full = (files.take k).map (setTier InclusionTier.full) ∧
      ((sumTokens (allocateToTiers cfg files).full : ℤ) ≤
        ⌊(cfg.maxTokens : ℚ) * cfg.fullDiffTokenBudget⌋) ∧
      (∀ sf rest2, files.drop k = sf :: rest2 →
        ⌊(cfg.maxTokens : ℚ) * cfg.fullDiffTokenBudget⌋ <
          (sumTokens (allocateToTiers cfg files).full : ℤ) + (sf.file.tokens : ℤ)) := by
  have hq : (0 : ℚ) ≤ (cfg.maxTokens : ℚ) * cfg.fullDiffTokenBudget :=
    mul_nonneg (by positivity) hb
  have hfloor : (0 : ℤ) ≤ ⌊(cfg.maxTokens : ℚ) * cfg.fullDiffTokenBudget⌋ :=
    Int.floor_nonneg.mpr hq
  have halloc : (allocateToTiers cfg files).full =
      (fullPass ⌊(cfg.maxTokens : ℚ) * cfg.fullDiffTokenBudget⌋ 0 files).1 := by
    simp only [allocateToTiers, pyInt_of_nonneg _ hq]
  obtain ⟨k, _, heq, hbud, hnext⟩ :=
    fullPass_spec ⌊(cfg.maxTokens : ℚ) * cfg.fullDiffTokenBudget⌋ files 0
  refine ⟨k, ?_, ?_, ?_⟩
  · rw [halloc, heq]
  · rw [halloc, heq]
    simp only [sumTokens_map_setTier]
    rcases hbud with h0 | hle
    · subst h0
      simpa [sumTokens_nil] using hfloor
    · simpa using hle
  · intro sf r2 hdrop
    have hn := hnext sf r2 hdrop
    rw [halloc, heq]
    simp only [sumTokens_map_setTier]
    simpa using hn

/-- C6 witness: the hypothesis `0 ≤ full_diff_token_budget` holds for the
default configuration. -/
theorem c6_full_tier_budget_witness :
    ∃ k, (allocateToTiers defaultConfig []).full
        = (([] : List ScoredFile).take k).map (setTier InclusionTier.full) ∧
      ((sumTokens (allocateToTiers defaultConfig []).full : ℤ) ≤
        ⌊(defaultConfig.maxTokens : ℚ) * defaultConfig.fullDiffTokenBudget⌋) ∧
      (∀ sf rest2, ([] : List ScoredFile).drop k = sf :: rest2 →
        ⌊(defaultConfig.maxTokens : ℚ) * defaultConfig.fullDiffTokenBudget⌋ <
          (sumTokens (allocateToTiers defaultConfig []).full : ℤ) + (sf.file.tokens : ℤ)) :=
  c6_full_tier_budget defaultConfig [] (by norm_num [defaultConfig])

/-! ## Claim C7 -/

/-- C7: for every input file list, the three tier lists concatenate (as files,
in order) to exactly the allocator's input — so every surviving file lands in
exactly one tier, none is dropped (overflow files are force-appended to
LISTED), and the three lengths sum to the number of files surviving the
binary/generated filter. -/
theorem c7_tier_partition (tc : String → Nat) (cached : Option (List (String × ℚ)))
    (cfg : CompressionConfig) (files : List FileChange) :
    let prepared := prepareFiles tc files
    let sorted := sortScored (scoreFiles cfg (analyzeRepositoryModel cached prepared) prepared)
    let alloc := allocateToTiers cfg sorted
    ((alloc.full.map (fun sf => sf.file)) ++ (alloc.summary.map (fun sf => sf.file))
        ++ (alloc.listed.map (fun sf => sf.file)) = sorted.map (fun sf => sf.file)) ∧
    alloc.full.length + alloc.summary.length + alloc.listed.length = prepared.length := by
  dsimp only
  constructor
  · exact allocation_partition cfg _
  · have h := congrArg List.length (allocation_partition cfg
      (sortScored (scoreFiles cfg (analyzeRepositoryModel cached (prepareFiles tc files))
        (prepareFiles tc files))))
    simp only [List.length_append, List.length_map] at h
    have hperm : (sortScored (scoreFiles cfg
        (analyzeRepositoryModel cached (prepareFiles tc files))
        (prepareFiles tc files))).length
        = (scoreFiles cfg (analyzeRepositoryModel cached (prepareFiles tc files))
            (prepareFiles tc files)).length :=
      (List.mergeSort_perm _ scoredDescLE).length_eq
    rw [hperm] at h
    simpa [scoreFiles] using h

/-! ## Sorting lemmas -/

theorem scoredDescLE_eq (a b : ScoredFile) :
    scoredDescLE a b = decide (b.importanceScore ≤ a.importanceScore) := by
  simp only [scoredDescLE, scoredLT]
  rw [← decide_not, decide_eq_decide]
  exact not_lt

theorem scoredDescLE_trans : ∀ (a b c : ScoredFile),
    scoredDescLE a b = true → scoredDescLE b c = true → scoredDescLE a c = true := by
  intro a b c hab hbc
  rw [scoredDescLE_eq] at hab hbc ⊢
  simp only [decide_eq_true_eq] at hab hbc ⊢
  exact le_trans hbc hab

theorem scoredDescLE_total : ∀ (a b : ScoredFile),
    (scoredDescLE a b || scoredDescLE b a) = true := by
  intro a b
  rw [scoredDescLE_eq, scoredDescLE_eq]
  simp only [Bool.or_eq_true, decide_eq_true_eq]
  exact le_total b.importanceScore a.importanceScore

/-! ## Claim C9 -/

/-- C9: `compress` is a pure function of its inputs (two runs from a cold
cache with the same config and files give syntactically the same result),
and within a run the scored list is sorted by descending importance score
with ties kept in the original order of the scored list (stability of the
sort: any two equally scored files adjacent as a subsequence of the input
stay in that relative order in the sorted output). -/
theorem c9_determinism_and_ordering (tc : String → Nat) (cfg : CompressionConfig)
    (files : List FileChange) :
    (compressModel tc none cfg files = compressModel tc none cfg files) ∧
    (List.Pairwise (fun a b => b.importanceScore ≤ a.importanceScore)
      (sortScored (scoreFiles cfg (analyzeRepositoryModel none (prepareFiles tc files))
        (prepareFiles tc files)))) ∧
    (∀ a b : ScoredFile, a.importanceScore = b.importanceScore →
      List.Sublist [a, b]
        (scoreFiles cfg (analyzeRepositoryModel none (prepareFiles tc files))
          (prepareFiles tc files)) →
      List.Sublist [a, b]
        (sortScored (scoreFiles cfg (analyzeRepositoryModel none (prepareFiles tc files))
          (prepareFiles tc files)))) := by
  refine ⟨rfl, ?_, ?_⟩
  · have hs := @List.sorted_mergeSort ScoredFile scoredDescLE scoredDescLE_trans
      scoredDescLE_total
      (scoreFiles cfg (analyzeRepositoryModel none (prepareFiles tc files))
        (prepareFiles tc files))
    exact hs.imp (fun {a b} h => by
      rw [scoredDescLE_eq] at h
      exact of_decide_eq_true h)
  · intro a b heq hsub
    exact List.mergeSort_stable_pair scoredDescLE_trans scoredDescLE_total
      (by rw [scoredDescLE_eq]; exact decide_eq_true (le_of_eq heq.symm)) hsub

/-! ## Hunk-removal lemmas -/

theorem strStarts_header_not_plus (l : String) (h : strStarts l "@@" = true) :
    strStarts l "+" = false := by
  unfold strStarts at h ⊢
  rw [show "@@".toList = ['@', '@'] from by decide] at h
  rw [show "+".toList = ['+'] from by decide]
  cases hl : l.toList with
  | nil => rw [hl] at h; exact absurd h (by decide)
  | cons c t =>
    rw [hl] at h
    simp only [List.isPrefixOf, Bool.and_eq_true, beq_iff_eq] at h
    obtain ⟨rfl, -⟩ := h
    simp [List.isPrefixOf]

theorem rdohLoop_inHunk :
    ∀ (rest cur : List String) (hasAdd : Bool),
      rdohLoop rest cur true hasAdd =
        (if (hasAdd || (rest.takeWhile (fun x => !(strStarts x "@@"))).any
              (fun l => strStarts l "+" && !(strStarts l "+++"))) = true
         then cur ++ rest.takeWhile (fun x => !(strStarts x "@@")) else [])
          ++ ((specSplitHunks (rest.dropWhile (fun x => !(strStarts x "@@")))).filter
              hunkHasAddition).flatten
  | [], cur, hasAdd => by
    cases hasAdd <;>
      simp [rdohLoop, specSplitHunks, List.takeWhile_nil, List.dropWhile_nil]
  | l :: rest, cur, hasAdd => by
    by_cases hh : strStarts l "@@" = true
    · have hp : (!(strStarts l "@@")) = false := by rw [hh]; rfl
      have hf : (strStarts l "+" && !(strStarts l "+++")) = false := by
        rw [strStarts_header_not_plus l hh]; rfl
      rw [List.takeWhile_cons, List.dropWhile_cons]
      rw [hp]
      simp only [Bool.false_eq_true, if_false]
      rw [rdohLoop.eq_2]
      rw [if_pos hh]
      rw [rdohLoop_inHunk rest [l] false]
      rw [specSplitHunks]
      rw [List.filter_cons]
      have hhunk : hunkHasAddition (l :: rest.takeWhile (fun x => !(strStarts x "@@")))
          = (rest.takeWhile (fun x => !(strStarts x "@@"))).any
              (fun x => strStarts x "+" && !(strStarts x "+++")) := by
        simp [hunkHasAddition, hf]
      rw [hhunk]
      cases hcond : (rest.takeWhile (fun x => !(strStarts x "@@"))).any
          (fun x => strStarts x "+" && !(strStarts x "+++")) <;>
        cases hasAdd <;>
          simp [List.flatten_cons, Bool.true_and]
    · have hb : strStarts l "@@" = false := by
        cases hsb : strStarts l "@@" with
        | false => rfl
        | true => exact absurd hsb hh
      have hp : (!(strStarts l "@@")) = true := by rw [hb]; rfl
      rw [List.takeWhile_cons, List.dropWhile_cons]
      rw [hp]
      simp only [if_true]
      rw [rdohLoop.eq_2]
      rw [if_neg hh]
      rw [if_pos rfl, rdohLoop_inHunk rest (cur ++ [l]) _]
      simp only [List.any_cons, Bool.or_assoc, List.append_assoc, List.singleton_append]

theorem rdohLoop_preamble : ∀ (ls : List String),
    rdohLoop ls [] false false = specRemoveDeletionOnlyLines ls
  | [] => by simp [rdohLoop, specRemoveDeletionOnlyLines, specSplitHunks]
  | l :: rest => by
    by_cases hh : strStarts l "@@" = true
    · have hp : (!(strStarts l "@@")) = false := by rw [hh]; rfl
      have hf : (strStarts l "+" && !(strStarts l "+++")) = false := by
        rw [strStarts_header_not_plus l hh]; rfl
      unfold specRemoveDeletionOnlyLines
      rw [List.takeWhile_cons, List.dropWhile_cons, hp]
      simp only [Bool.false_eq_true, if_false]
      rw [rdohLoop.eq_2, if_pos hh]
      rw [rdohLoop_inHunk rest [l] false]
      rw [specSplitHunks, List.filter_cons]
      have hhunk : hunkHasAddition (l :: rest.takeWhile (fun x => !(strStarts x "@@")))
          = (rest.takeWhile (fun x => !(strStarts x "@@"))).any
              (fun x => strStarts x "+" && !(strStarts x "+++")) := by
        simp [hunkHasAddition, hf]
      rw [hhunk]
      cases hcond : (rest.takeWhile (fun x => !(strStarts x "@@"))).any
          (fun x => strStarts x "+" && !(strStarts x "+++")) <;>
        simp [List.flatten_cons]
    · have hb : strStarts l "@@" = false := by
        cases hsb : strStarts l "@@" with
        | false => rfl
        | true => exact absurd hsb hh
      have hp : (!(strStarts l "@@")) = true := by rw [hb]; rfl
      unfold specRemoveDeletionOnlyLines
      rw [List.takeWhile_cons, List.dropWhile_cons, hp]
      simp only [if_true]
      rw [rdohLoop.eq_2, if_neg hh]
      simp only [Bool.false_eq_true, if_false]
      rw [rdohLoop_preamble rest]
      unfold specRemoveDeletionOnlyLines
      simp [List.cons_append]

/-! ## Claim C8 -/

/-- C8: `remove_deletion_only_hunks` keeps all lines preceding the first `@@`
line unchanged and keeps a hunk (an `@@` line together with the following
lines up to the next `@@` line) exactly when it contains at least one line
starting with `+` that does not start with `+++`; the kept pieces appear in
their original order. -/
theorem c8_deletion_only_hunks (patch : String) :
    removeDeletionOnlyHunks patch
      = String.intercalate "\n" (specRemoveDeletionOnlyLines (pySplitLines patch)) := by
  unfold removeDeletionOnlyHunks
  rw [rdohLoop_preamble]

/-! ## Claim C2 -/

theorem c2_lang (lg : String) (tk : Nat) (pt : String) :
    analyzeFileListCode
      [{ path := "auth/session.py", status := "modified", additions := 10, deletions := 2,
         changes := 12, patch := pt, language := lg, tokens := tk, isBinary := false }]
      = [("python", 650)] := by
  have h1 : shouldSkipFile "auth/session.py" = false := by decide
  have h2 : detect "auth/session.py" = "python" := by decide
  have h3 : (("python" : String) == "unknown") = false := by decide
  simp only [analyzeFileListCode, List.isEmpty_cons, List.foldl_cons, List.foldl_nil,
    tallyStep, h1, h2, h3, Bool.false_eq_true, if_false, bumpNat, lookupNat,
    beq_self_eq_true, if_true, List.map_cons, List.map_nil, List.sum_cons,
    List.sum_nil, Prod.mk.injEq, true_and]
  rw [round1_eq_of_mul_ten _ 6500 (by norm_num)]
  norm_num

theorem c2_prep (tc : String → Nat) :
    prepareFiles tc [c2File] =
      [{ path := "auth/session.py", status := "modified", additions := 10, deletions := 2,
         changes := 12, patch := "+token = generate()\n-old_token = None\n",
         language := "python", tokens := tc "+token = generate()\n-old_token = None\n",
         isBinary := false }] := by
  have h1 : isGenerated "auth/session.py" = false := by decide
  have h2 : isCritical "auth/session.py" = true := by decide
  have h3 : detect "auth/session.py" = "python" := by decide
  simp [prepareFiles, prepareFile, expandContext, c2File, h1, h2, h3]

theorem c2_score (tc : String → Nat) :
    scoreFile defaultConfig [("python", 650)]
      { path := "auth/session.py", status := "modified", additions := 10, deletions := 2,
        changes := 12, patch := "+token = generate()\n-old_token = None\n",
        language := "python", tokens := tc "+token = generate()\n-old_token = None\n",
        isBinary := false }
      = { file := { path := "auth/session.py", status := "modified", additions := 10,
                    deletions := 2, changes := 12,
                    patch := "+token = generate()\n-old_token = None\n",
                    language := "python",
                    tokens := tc "+token = generate()\n-old_token = None\n",
                    isBinary := false },
          importanceScore := 2461/10, criticalBonus := 50, languageBonus := 195,
          sizeBonus := 11/10, typePenalty := 0,
          isCritical := true, isTest := false, isDoc := false, inclusionTier := none } := by
  have h2 : isCritical "auth/session.py" = true := by decide
  have h4 : isTest "auth/session.py" = false := by decide
  have h5 : isDoc "auth/session.py" = false := by decide
  have h6 : (("python" : String) == "python") = true := by decide
  simp only [scoreFile, h2, h4, h5, h6, lookupQ, if_true, if_false, Bool.false_eq_true,
    FileChange.isDeleted, defaultConfig]
  have h7 : (("modified" : String) == "removed") = false := by decide
  simp only [h7, Bool.false_and, Bool.false_eq_true, if_false, ScoredFile.mk.injEq]
  norm_num [min_def]

theorem fullPass_singleton_fits (b : ℤ) (sf : ScoredFile)
    (hc : (sf.file.tokens : ℤ) ≤ b) :
    fullPass b 0 [sf] = ([setTier InclusionTier.full sf], []) := by
  simp only [fullPass]
  rw [if_pos (by push_cast; omega)]

theorem c2_main (tc : String → Nat)
    (h : tc "+token = generate()\n-old_token = None\n" ≤ 37500) :
    ∃ r, compressModel tc none defaultConfig [c2File] = some r ∧
      r.includedFull.map (fun sf => sf.importanceScore) = [2461/10] ∧
      r.includedSummary = [] ∧ r.includedListed = [] ∧
      r.includedFull.map (fun sf => sf.isCritical) = [true] ∧
      r.includedFull.map (fun sf => sf.isTest) = [false] := by
  have hprep := c2_prep tc
  have hbud : pyInt ((defaultConfig.maxTokens : ℚ) * defaultConfig.fullDiffTokenBudget)
      = 37500 := by
    rw [show ((defaultConfig.maxTokens : ℚ) * defaultConfig.fullDiffTokenBudget)
        = ((37500 : ℤ) : ℚ) by norm_num [defaultConfig], pyInt_intCast]
  simp only [compressModel, hprep, analyzeRepositoryModel, c2_lang, scoreFiles,
    List.map_cons, List.map_nil, c2_score tc, sortScored, List.mergeSort_singleton,
    allocateToTiers, hbud]
  rw [fullPass_singleton_fits 37500 _ (by exact_mod_cast h)]
  simp only [summaryPass, listedPass, generateStats, setTier, List.map_cons, List.map_nil]
  exact ⟨_, rfl, rfl, rfl, rfl, rfl, rfl⟩

/-- C2 counterexample: under the default configuration, a cold cache and the
source's own fallback token counter, the single file of the spec's example
scenario is scored 246.1, not approximately 72.1: the language priority map
derived from the PR does contain `python` (with the buggy value 650.0, giving
a language bonus of 195), so the claimed fallback to the default-table value
70 never happens. -/
theorem c2_score_counterexample :
    (compressModel fallbackTokenCount none defaultConfig [c2File]).map
      (fun r => r.includedFull.map (fun sf => sf.importanceScore)) = some [2461/10] ∧
    ((2461 : ℚ)/10 ≠ 721/10) ∧ ((2461 : ℚ)/10 - 721/10 = 174) := by
  obtain ⟨r, hr, hs, -, -, -, -⟩ := c2_main fallbackTokenCount (by decide)
  refine ⟨?_, by norm_num, by norm_num⟩
  rw [hr]
  simpa using hs

/-- C2 (amended): for the spec's example input under the default config and a
cold cache, whenever the patch's token count fits the FULL budget (37500),
`compress` places the file alone in the FULL tier with importance score 246.1
(50 critical bonus + 650*0.3 language bonus from the PR-derived priority map
+ 1 additions + 0.1 deletions), `is_critical = true` and `is_test = false`. -/
theorem c2_example_scenario_amended (tc : String → Nat)
    (h : tc "+token = generate()\n-old_token = None\n" ≤ 37500) :
    ∃ r, compressModel tc none defaultConfig [c2File] = some r ∧
      r.includedFull.map (fun sf => sf.importanceScore) = [2461/10] ∧
      r.includedSummary = [] ∧ r.includedListed = [] ∧
      r.includedFull.map (fun sf => sf.isCritical) = [true] ∧
      r.includedFull.map (fun sf => sf.isTest) = [false] :=
  c2_main tc h

/-- C2 witness: the amended statement applied to the concrete fallback token
counter, whose count (9) fits the budget. -/
theorem c2_example_scenario_amended_witness :
    ∃ r, compressModel fallbackTokenCount none defaultConfig [c2File] = some r ∧
      r.includedFull.map (fun sf => sf.importanceScore) = [2461/10] ∧
      r.includedSummary = [] ∧ r.includedListed = [] ∧
      r.includedFull.map (fun sf => sf.isCritical) = [true] ∧
      r.includedFull.map (fun sf => sf.isTest) = [false] :=
  c2_example_scenario_amended fallbackTokenCount (by decide)

/-! ## Claim C9 witness -/

theorem c9_tie_prep :
    prepareFiles fallbackTokenCount [tieFileA, tieFileB] =
      [{ path := "alpha/m1.py", status := "modified", additions := 0, deletions := 0,
         changes := 0, patch := "", language := "python", tokens := 0, isBinary := false },
       { path := "beta/m2.py", status := "modified", additions := 0, deletions := 0,
         changes := 0, patch := "", language := "python", tokens := 0, isBinary := false }] := by
  decide

theorem c9_tie_lang :
    analyzeFileListCode
      [{ path := "alpha/m1.py", status := "modified", additions := 0, deletions := 0,
         changes := 0, patch := "", language := "python", tokens := 0, isBinary := false },
       { path := "beta/m2.py", status := "modified", additions := 0, deletions := 0,
         changes := 0, patch := "", language := "python", tokens := 0, isBinary := false }]
      = [("python", 50)] := by
  have h1 : shouldSkipFile "alpha/m1.py" = false := by decide
  have h2 : shouldSkipFile "beta/m2.py" = false := by decide
  have h3 : detect "alpha/m1.py" = "python" := by decide
  have h4 : detect "beta/m2.py" = "python" := by decide
  have h5 : (("python" : String) == "unknown") = false := by decide
  have h6 : (("python" : String) == "python") = true := by decide
  simp only [analyzeFileListCode, List.isEmpty_cons, List.foldl_cons, List.foldl_nil,
    tallyStep, h1, h2, h3, h4, h5, h6, Bool.false_eq_true, if_false, bumpNat, lookupNat,
    beq_self_eq_true, if_true, List.map_cons, List.map_nil, List.sum_cons,
    List.sum_nil, Prod.mk.injEq, true_and]
  rw [round1_eq_of_mul_ten _ 500 (by norm_num)]
  norm_num

theorem c9_tie_scores :
    (scoreFile defaultConfig
        (analyzeRepositoryModel none (prepareFiles fallbackTokenCount [tieFileA, tieFileB]))
        (prepareFile fallbackTokenCount tieFileA)).importanceScore
      = (scoreFile defaultConfig
          (analyzeRepositoryModel none (prepareFiles fallbackTokenCount [tieFileA, tieFileB]))
          (prepareFile fallbackTokenCount tieFileB)).importanceScore := by
  have e : analyzeRepositoryModel none (prepareFiles fallbackTokenCount [tieFileA, tieFileB])
      = [("python", 50)] := by
    show analyzeFileListCode _ = _
    rw [c9_tie_prep]
    exact c9_tie_lang
  have epA : prepareFile fallbackTokenCount tieFileA =
      { path := "alpha/m1.py", status := "modified", additions := 0, deletions := 0,
        changes := 0, patch := "", language := "python", tokens := 0, isBinary := false } := by
    decide
  have epB : prepareFile fallbackTokenCount tieFileB =
      { path := "beta/m2.py", status := "modified", additions := 0, deletions := 0,
        changes := 0, patch := "", language := "python", tokens := 0, isBinary := false } := by
    decide
  rw [e, epA, epB]
  have hA1 : isCritical "alpha/m1.py" = false := by decide
  have hA2 : isTest "alpha/m1.py" = false := by decide
  have hA3 : isDoc "alpha/m1.py" = false := by decide
  have hB1 : isCritical "beta/m2.py" = false := by decide
  have hB2 : isTest "beta/m2.py" = false := by decide
  have hB3 : isDoc "beta/m2.py" = false := by decide
  have h6 : (("python" : String) == "python") = true := by decide
  have h7 : (("modified" : String) == "removed") = false := by decide
  simp only [scoreFile, hA1, hA2, hA3, hB1, hB2, hB3, h6, h7, lookupQ,
    FileChange.isDeleted, Bool.false_and, Bool.false_eq_true, if_false, if_true]

/-- C9 witness: the stability part of the claim applied to two concrete,
equally scored files: their scored versions stay in input order in the sorted
list. -/
theorem c9_determinism_and_ordering_witness :
    List.Sublist
      [scoreFile defaultConfig
          (analyzeRepositoryModel none (prepareFiles fallbackTokenCount [tieFileA, tieFileB]))
          (prepareFile fallbackTokenCount tieFileA),
       scoreFile defaultConfig
          (analyzeRepositoryModel none (prepareFiles fallbackTokenCount [tieFileA, tieFileB]))
          (prepareFile fallbackTokenCount tieFileB)]
      (sortScored (scoreFiles defaultConfig
        (analyzeRepositoryModel none (prepareFiles fallbackTokenCount [tieFileA, tieFileB]))
        (prepareFiles fallbackTokenCount [tieFileA, tieFileB]))) :=
  (c9_determinism_and_ordering fallbackTokenCount defaultConfig [tieFileA, tieFileB]).2.2
    _ _ c9_tie_scores (List.Sublist.refl _)

end PROwl
